import Mathlib

/-!
# people2: validation, enrichment and the Create and Read handlers

A shallow embedding of `models/models.go`, `requests/requests.go` and
`handlers/handlers.go`.

Go strings are modelled by Lean strings (sequences of Unicode scalar values):
every string reaching this code was decoded from JSON, and `encoding/json`
yields valid UTF-8 only.  Go's `len(s)` is the number of bytes of the UTF-8
encoding, which is `len` below.  A Go `error` is an `Option String`
(`none` is `nil`, `some msg` is `errors.New(msg)`).
-/

namespace People2

/-! ## Go primitives used by the source -/

/-- Number of bytes of the UTF-8 encoding of one code point. -/
def runeLen (c : Char) : Nat :=
  if c.toNat < 0x80 then 1
  else if c.toNat < 0x800 then 2
  else if c.toNat < 0x10000 then 3
  else 4

/-- Go's builtin `len` on a string: its length in bytes. -/
def len (s : String) : Nat :=
  (s.data.map runeLen).sum

/-- Go's `strings.Join`. -/
def stringsJoin : List String → String → String
  | [], _ => ""
  | [a], _ => a
  | a :: b :: rest, sep => a ++ sep ++ stringsJoin (b :: rest) sep

/-- The character class `[a-zA-Zа-яА-Я]` of `namePattern`: the ranges
`a-z` (U+0061..U+007A), `A-Z` (U+0041..U+005A), `а-я` (U+0430..U+044F) and
`А-Я` (U+0410..U+042F). -/
def nameClass (c : Char) : Bool :=
  (0x61 ≤ c.toNat && c.toNat ≤ 0x7A) ||
  (0x41 ≤ c.toNat && c.toNat ≤ 0x5A) ||
  (0x430 ≤ c.toNat && c.toNat ≤ 0x44F) ||
  (0x410 ≤ c.toNat && c.toNat ≤ 0x42F)

/-- The character class `[A-Z]` of `countryPattern`. -/
def upperClass (c : Char) : Bool :=
  0x41 ≤ c.toNat && c.toNat ≤ 0x5A

/-- `regexp.MustCompile("^[a-zA-Zа-яА-Я]+$").MatchString`: in Go's RE2 syntax
without the `m` flag, `^` and `$` match only at the two ends of the text, so
the text matches when it is a non-empty run of characters of the class. -/
def matchNamePattern (s : String) : Bool :=
  !s.data.isEmpty && s.data.all nameClass

/-- `regexp.MustCompile("^[A-Z]{2}$").MatchString`: exactly two characters,
both of the class `[A-Z]`. -/
def matchCountryPattern (s : String) : Bool :=
  match s.data with
  | [a, b] => upperClass a && upperClass b
  | _ => false

/-! ## models/models.go -/

/-- The model for parsing data from the requests. -/
structure FullName where
  Name : String
  Surname : String
  Patronymic : String
  Error : String
deriving DecidableEq, Repr

/-- The slice `errContent` of `FullName.IsValid` after the two switches. -/
def FullName.errContent (e : FullName) : List String :=
  let errContent : List String := []
  -- Name
  let errContent :=
    if e.Name = "" then errContent ++ ["name cannot be empty"]
    else if len e.Name < 2 then errContent ++ ["name is too short"]
    else if len e.Name > 50 then errContent ++ ["name is too long"]
    else if !matchNamePattern e.Name then
      errContent ++ ["name contains invalid characters"]
    else errContent
  -- Surname
  let errContent :=
    if e.Surname = "" then errContent ++ ["surname cannot be empty"]
    else if len e.Surname < 2 then errContent ++ ["surname is too short"]
    else if len e.Surname > 50 then errContent ++ ["surname is too long"]
    else if !matchNamePattern e.Surname then
      errContent ++ ["surname contains invalid characters"]
    else errContent
  errContent

/-- The method of the data validity checking in the FullName model. -/
def FullName.IsValid (e : FullName) : String :=
  if (FullName.errContent e).length = 0 then ""
  else stringsJoin (FullName.errContent e) ", "

/-- The model for saving data in the database (the columns the code reads;
`Age` is a `uint8`). -/
structure Entry where
  ID : Nat
  Name : String
  Surname : String
  Patronymic : String
  Age : Nat
  Gender : String
  Nationality : String
deriving DecidableEq, Repr

/-- The slice `errContent` of `Entry.IsValid` after the five checks. -/
def Entry.errContent (e : Entry) : List String :=
  let errContent : List String := []
  -- Name
  let errContent :=
    if e.Name = "" then errContent ++ ["name cannot be empty"]
    else if len e.Name < 2 then errContent ++ ["name is too short"]
    else if len e.Name > 50 then errContent ++ ["name is too long"]
    else if !matchNamePattern e.Name then
      errContent ++ ["name contains invalid characters"]
    else errContent
  -- Surname
  let errContent :=
    if e.Surname = "" then errContent ++ ["surname cannot be empty"]
    else if len e.Surname < 2 then errContent ++ ["surname is too short"]
    else if len e.Surname > 50 then errContent ++ ["surname is too long"]
    else if !matchNamePattern e.Surname then
      errContent ++ ["surname contains invalid characters"]
    else errContent
  -- Age
  let errContent :=
    if e.Age < 1 ∨ e.Age > 120 then errContent ++ ["age contains invalid data"]
    else errContent
  -- Gender
  let errContent :=
    if e.Gender = "" then errContent ++ ["gender cannot be empty"]
    else if e.Gender ≠ "male" ∧ e.Gender ≠ "female" then
      errContent ++ ["only “male” or “female” gender is available"]
    else errContent
  -- Nationality
  let errContent :=
    if e.Nationality = "" then errContent ++ ["nationality cannot be empty"]
    else if !matchCountryPattern e.Nationality then
      errContent ++ ["nationality contains invalid data (example: RU, US)"]
    else errContent
  errContent

/-- The method of the data validity checking in the Entry model. -/
def Entry.IsValid (e : Entry) : Option String :=
  if (Entry.errContent e).length = 0 then none
  else some (stringsJoin (Entry.errContent e) ", ")

/-! ## The per-field reading of the two validators

The rules of each field as an ordered list of checks with their messages; the
message of a field is that of the first check that fires. -/

/-- The message of the first check of the list that fires on `v`, if any. -/
def firstFiring {α : Type} (checks : List ((α → Bool) × String)) (v : α) :
    Option String :=
  (checks.find? (fun c => c.1 v)).map Prod.snd

/-- The ordered checks of the field name. -/
def nameChecks : List ((String → Bool) × String) :=
  [(fun s => s = "", "name cannot be empty"),
   (fun s => len s < 2, "name is too short"),
   (fun s => len s > 50, "name is too long"),
   (fun s => !matchNamePattern s, "name contains invalid characters")]

/-- The ordered checks of the field surname. -/
def surnameChecks : List ((String → Bool) × String) :=
  [(fun s => s = "", "surname cannot be empty"),
   (fun s => len s < 2, "surname is too short"),
   (fun s => len s > 50, "surname is too long"),
   (fun s => !matchNamePattern s, "surname contains invalid characters")]

/-- The single check of the field age. -/
def ageChecks : List ((Nat → Bool) × String) :=
  [(fun a => a < 1 || a > 120, "age contains invalid data")]

/-- The ordered checks of the field gender. -/
def genderChecks : List ((String → Bool) × String) :=
  [(fun s => s = "", "gender cannot be empty"),
   (fun s => s ≠ "male" && s ≠ "female",
    "only “male” or “female” gender is available")]

/-- The ordered checks of the field nationality. -/
def nationalityChecks : List ((String → Bool) × String) :=
  [(fun s => s = "", "nationality cannot be empty"),
   (fun s => !matchCountryPattern s,
    "nationality contains invalid data (example: RU, US)")]

/-- The messages of the violated fields of a `FullName`, in the order name,
surname. -/
def FullName.violations (e : FullName) : List String :=
  (firstFiring nameChecks e.Name).toList ++
  (firstFiring surnameChecks e.Surname).toList

/-- The messages of the violated fields of an `Entry`, in the order name,
surname, age, gender, nationality. -/
def Entry.violations (e : Entry) : List String :=
  (firstFiring nameChecks e.Name).toList ++
  (firstFiring surnameChecks e.Surname).toList ++
  (firstFiring ageChecks e.Age).toList ++
  (firstFiring genderChecks e.Gender).toList ++
  (firstFiring nationalityChecks e.Nationality).toList

/-- A string is two uppercase Latin letters `A`..`Z` and nothing else. -/
def TwoUpper (s : String) : Prop :=
  ∃ a b : Char, s = String.mk [a, b] ∧
    'A' ≤ a ∧ a ≤ 'Z' ∧ 'A' ≤ b ∧ b ≤ 'Z'

/-! ## requests/requests.go

A lookup task runs in its own goroutine.  It reads nothing the other tasks
write, so its run is a fixed sequence of actions on the shared state (the
record, the error channel), computed here from the provider's reply; the
interleaving of the three sequences is left to `step` below. -/

/-- A decoded JSON value, as `encoding/json` stores it in an `interface{}`
(an object is the list of its keys with their values).
A number is a `float64`; it is represented by its integer part (truncation
toward zero), the only part the conversion `uint8(target)` reads.  The nil
interface (an absent key, or JSON `null`) is `null`. -/
inductive JSON where
  | null : JSON
  | bool (b : Bool) : JSON
  | num (n : Int) : JSON
  | str (s : String) : JSON
  | arr (l : List JSON) : JSON
  | obj (m : List (String × JSON)) : JSON

/-- Go's map index expression `m[key]` on a `map[string]interface{}`; a nil
map is the empty list, and an absent key reads as the nil interface. -/
def mapIndex (m : List (String × JSON)) (key : String) : JSON :=
  match m.lookup key with
  | some v => v
  | none => JSON.null

/-- The type assertion `x.(float64)` in its comma-ok form. -/
def assertFloat64 : JSON → Int × Bool
  | .num n => (n, true)
  | _ => (0, false)

/-- The type assertion `x.(string)` in its comma-ok form. -/
def assertString : JSON → String × Bool
  | .str s => (s, true)
  | _ => ("", false)

/-- The type assertion `x.([]interface{})` in its comma-ok form. -/
def assertSlice : JSON → List JSON × Bool
  | .arr l => (l, true)
  | _ => ([], false)

/-- The type assertion `x.(map[string]interface{})` in its comma-ok form. -/
def assertMap : JSON → List (String × JSON) × Bool
  | .obj m => (m, true)
  | _ => ([], false)

/-- The conversion `uint8(target)` of a `float64` given by its integer part:
the value itself when it is in [0,255]; outside that range Go leaves the
result to the implementation, and the low 8 bits are taken here. -/
def uint8 (target : Int) : Nat :=
  (target % 256).toNat

/-- What a provider does with one GET: `http.Get` fails, or the body is not
decodable into the map, or it decodes. -/
inductive Reply where
  | transportError (err : String) : Reply
  | malformedBody (err : String) : Reply
  | decoded (data : List (String × JSON)) : Reply

/-- One action of a lookup task on the shared state. -/
inductive Act where
  | get (url : String) : Act
  | send (err : String) : Act
  | setAge (v : Nat) : Act
  | setGender (v : String) : Act
  | setNationality (v : String) : Act
  | panic (msg : String) : Act
deriving DecidableEq, Repr

namespace requests

/-- The function of processing the request to the specified url: the error it
returns and the map it leaves in `reqData` (nil when it returns an error). -/
def apiReq (net : String → Reply) (url : String) :
    Option String × List (String × JSON) :=
  match net url with
  | .transportError err => (some err, [])
  | .malformedBody err => (some err, [])
  | .decoded data => (none, data)

/-- Gorutin for obtaining age data based on a name: its actions, in order. -/
def Age (net : String → Reply) (name : String) : List Act :=
  let url := "https://api.agify.io/?name=" ++ name
  let t := [Act.get url]
  let (err, reqData) := apiReq net url
  let t := match err with
    | some err => t ++ [Act.send err]
    | none => t
  let (target, ok) := assertFloat64 (mapIndex reqData "age")
  let t := if !ok then t ++ [Act.send "age data not found"] else t
  t ++ [Act.setAge (uint8 target)]

/-- Gorutin for obtaining gender data based on a name: its actions, in
order. -/
def Gender (net : String → Reply) (name : String) : List Act :=
  let url := "https://api.genderize.io/?name=" ++ name
  let t := [Act.get url]
  let (err, reqData) := apiReq net url
  let t := match err with
    | some err => t ++ [Act.send err]
    | none => t
  let (target, ok) := assertString (mapIndex reqData "gender")
  let t := if !ok then t ++ [Act.send "gender data not found"] else t
  t ++ [Act.setGender target]

/-- Gorutin for obtaining nationality data based on a name: its actions, in
order.  The index expression `countryList[0]` panics on an empty slice. -/
def Nationality (net : String → Reply) (name : String) : List Act :=
  let url := "https://api.nationalize.io/?name=" ++ name
  let t := [Act.get url]
  let (err, reqData) := apiReq net url
  let t := match err with
    | some err => t ++ [Act.send err]
    | none => t
  let (countryList, ok) := assertSlice (mapIndex reqData "country")
  let t := if !ok || countryList.length == 0 then
      t ++ [Act.send "country data not found"]
    else t
  match countryList with
  | [] => t ++ [Act.panic "index out of range [0] with length 0"]
  | first :: _ =>
    let (firstCountry, ok) := assertMap first
    let t := if !ok then t ++ [Act.send "invalid country data"] else t
    let (countryID, ok) := assertString (mapIndex firstCountry "country_id")
    let t := if !ok then t ++ [Act.send "country ID not found"] else t
    t ++ [Act.setNationality countryID]

end requests

/-! ## Entry.Enrich: three goroutines, the closer and the caller -/

/-- The goroutines of one `Enrich` call: the three lookup tasks, the
goroutine that waits for them and closes the channel, and the caller. -/
inductive Tid where
  | age : Tid
  | gender : Tid
  | nationality : Tid
  | closer : Tid
  | caller : Tid
deriving DecidableEq, Repr

/-- The state of one `Enrich` call.  `errCh` is the buffer of the channel
(capacity 3), `tasks` the counter of the `WaitGroup`; a task is `some` of its
remaining actions, and `none` once its deferred `wg.Done()` has run;
`requested` lists the URLs fetched so far; `ret` is `some` of the returned
error once `Enrich` has returned; `crashed` is set by a panic in a goroutine,
which ends the process. -/
structure Sys where
  entry : Entry
  errCh : List String
  closed : Bool
  tasks : Nat
  ageTask : Option (List Act)
  genderTask : Option (List Act)
  nationalityTask : Option (List Act)
  requested : List String
  ret : Option (Option String)
  crashed : Bool
deriving DecidableEq, Repr

/-- One action of a task on the state; `none` when the action cannot be
taken now (a send on a full channel blocks). -/
def perform (s : Sys) : Act → Option Sys
  | .get url => some { s with requested := s.requested ++ [url] }
  | .send err =>
    if s.closed then some { s with crashed := true }
    else if s.errCh.length < 3 then some { s with errCh := s.errCh ++ [err] }
    else none
  | .setAge v => some { s with entry := { s.entry with Age := v } }
  | .setGender v => some { s with entry := { s.entry with Gender := v } }
  | .setNationality v =>
    some { s with entry := { s.entry with Nationality := v } }
  | .panic _ => some { s with crashed := true }

/-- One step of a lookup task: its next action, or, after the last one, its
deferred `wg.Done()`. -/
def stepTask (s : Sys) (task : Option (List Act))
    (put : Sys → Option (List Act) → Sys) : Sys :=
  match task with
  | none => s
  | some [] => put { s with tasks := s.tasks - 1 } none
  | some (a :: rest) =>
    match perform s a with
    | none => s
    | some s1 => if s1.crashed then s1 else put s1 (some rest)

/-- One step of the goroutine `t`; a goroutine that is blocked or has
finished leaves the state as it is, and nothing runs after a crash.  The
caller's step is one iteration of `for err := range errCh`: it returns the
first error it receives, and returns nil when the channel is closed and
empty. -/
def step (s : Sys) (t : Tid) : Sys :=
  if s.crashed then s
  else match t with
    | .age => stepTask s s.ageTask (fun s v => { s with ageTask := v })
    | .gender => stepTask s s.genderTask (fun s v => { s with genderTask := v })
    | .nationality =>
      stepTask s s.nationalityTask (fun s v => { s with nationalityTask := v })
    | .closer =>
      if s.tasks = 0 ∧ s.closed = false then { s with closed := true } else s
    | .caller =>
      match s.ret with
      | some _ => s
      | none =>
        match s.errCh with
        | err :: rest => { s with errCh := rest, ret := some (some err) }
        | [] => if s.closed then { s with ret := some none } else s

/-- The state in which `Enrich` starts its goroutines. -/
def Entry.enrichStart (e : Entry) (name : String) (net : String → Reply) : Sys :=
  { entry := e, errCh := [], closed := false, tasks := 3,
    ageTask := some (requests.Age net name),
    genderTask := some (requests.Gender net name),
    nationalityTask := some (requests.Nationality net name),
    requested := [], ret := none, crashed := false }

/-- The method for enrich messages by age, gender and nationality, run
under the schedule `sched` (the goroutine that takes each next step).  The
result is the state the schedule leads to: `ret` holds the error `Enrich`
returned, if it has returned, and `entry` the record. -/
def Entry.Enrich (e : Entry) (name : String) (net : String → Reply)
    (sched : List Tid) : Sys :=
  sched.foldl step (Entry.enrichStart e name net)

/-- A schedule that runs every goroutine to its end from any state of a call
whose tasks send no error: three steps of each task (its request, its
assignment and its `wg.Done()`), then the closer, then the caller. -/
def runToEnd : List Tid :=
  [.age, .age, .age, .gender, .gender, .gender,
   .nationality, .nationality, .nationality, .closer, .caller]

/-- The contribution of a task to the counter of the `WaitGroup`. -/
def pending : Option (List Act) → Nat
  | none => 0
  | some _ => 1

/-- The states of an `Enrich` call whose three tasks send no error. -/
structure EnrichOK (u1 u2 u3 : String) (a : Nat) (g c : String) (s : Sys) : Prop where
  not_crashed : s.crashed = false
  ch_empty : s.errCh = []
  age : s.ageTask = some [Act.get u1, Act.setAge a] ∨ s.ageTask = some [Act.setAge a] ∨
    ((s.ageTask = some [] ∨ s.ageTask = none) ∧ s.entry.Age = a)
  gender : s.genderTask = some [Act.get u2, Act.setGender g] ∨
    s.genderTask = some [Act.setGender g] ∨
    ((s.genderTask = some [] ∨ s.genderTask = none) ∧ s.entry.Gender = g)
  nationality : s.nationalityTask = some [Act.get u3, Act.setNationality c] ∨
    s.nationalityTask = some [Act.setNationality c] ∨
    ((s.nationalityTask = some [] ∨ s.nationalityTask = none) ∧ s.entry.Nationality = c)
  count : s.tasks = pending s.ageTask + pending s.genderTask + pending s.nationalityTask
  closed_imp : s.closed = true → s.tasks = 0
  ret_imp : ∀ r, s.ret = some r → r = none ∧ s.closed = true

/-! ## handlers/handlers.go -/

/-- The JSON answer of a handler: the status code and the one key and value
of its body. -/
structure Response where
  code : Nat
  key : String
  value : String
deriving DecidableEq, Repr

/-- What one `Create` call did: its answer (`none` while `Enrich` has not
returned), the provider URLs it fetched, and the records it passed to
`db.C.Create`. -/
structure Outcome where
  response : Option Response
  requested : List String
  inserted : List Entry
deriving DecidableEq, Repr

/-- This API handler processes, checks, enriches and saves correct incoming
messages to the database.  `bind` is the result of `c.ShouldBind(&dataMsg)`,
`dbCreate` the error of `db.C.Create(&entry)`, and `sched` the schedule of
the goroutines of `Enrich`. -/
def Create (bind : Except String FullName) (net : String → Reply)
    (dbCreate : Entry → Option String) (sched : List Tid) : Outcome :=
  match bind with
  | .error _ => ⟨some ⟨400, "error", "Invalid API query"⟩, [], []⟩
  | .ok dataMsg =>
    let result := dataMsg.IsValid
    if result ≠ "" then
      let dataMsg := { dataMsg with Error := result }
      ⟨some ⟨422, "error", dataMsg.Error⟩, [], []⟩
    else
      let entry : Entry :=
        { ID := 0, Name := dataMsg.Name, Surname := dataMsg.Surname,
          Patronymic := dataMsg.Patronymic, Age := 0, Gender := "",
          Nationality := "" }
      let s := entry.Enrich entry.Name net sched
      match s.ret with
      | none => ⟨none, s.requested, []⟩
      | some (some err) =>
        let dataMsg :=
          { dataMsg with Error := "Failed to enrich data from API: " ++ err }
        ⟨some ⟨500, "error", dataMsg.Error⟩, s.requested, []⟩
      | some none =>
        let entry := s.entry
        match entry.IsValid with
        | some err =>
          ⟨some ⟨422, "error", "Filling errors: " ++ err⟩, s.requested, []⟩
        | none =>
          match dbCreate entry with
          | some _ =>
            ⟨some ⟨500, "error", "Failed to create entry"⟩, s.requested, [entry]⟩
          | none =>
            ⟨some ⟨200, "message", "Success"⟩, s.requested, [entry]⟩

/-- Go's `strconv.Atoi` (standard library): an optional sign followed by
one or more decimal digits, whose value fits the 64-bit `int`; anything else
is an error (`none`). -/
def Atoi (s : String) : Option Int :=
  match s.data with
  | [] => none
  | c :: rest =>
    let digits := if c = '-' ∨ c = '+' then rest else c :: rest
    if digits.isEmpty || !digits.all Char.isDigit then none
    else
      let n : Nat := digits.foldl (fun acc d => acc * 10 + (d.toNat - 48)) 0
      let v : Int := if c = '-' then -(n : Int) else (n : Int)
      if v < -(2 : Int) ^ 63 ∨ v > (2 : Int) ^ 63 - 1 then none else some v

/-- The value of an arithmetic result in Go's 64-bit `int` (two's complement
wrap-around). -/
def wrapInt (x : Int) : Int :=
  (x + (2 : Int) ^ 63) % (2 : Int) ^ 64 - (2 : Int) ^ 63

/-- One query of `Read` on the table of entries: `Limit`, `Offset` and, when
both filters are given, the `Where` clause with its argument. -/
structure DbQuery where
  limit : Int
  offset : Int
  filter : Option (String × String)
deriving DecidableEq, Repr

/-- The JSON body of an answer of `Read`: `{"error": msg}` or
`{"entries": es}`. -/
inductive ReadBody where
  | error (msg : String) : ReadBody
  | entries (es : List Entry) : ReadBody
deriving DecidableEq, Repr

/-- What one `Read` call did: the status code and body of its answer, and
the queries it sent to the database. -/
structure ReadOutcome where
  code : Nat
  body : ReadBody
  queries : List DbQuery
deriving DecidableEq, Repr

/-- This API handler reads filtering parameters and get data from the
database.  `query` gives the URL query parameters (`none` for an absent key),
so `c.Query(key)` is `(query key).getD ""` and `c.DefaultQuery(key, d)` is
`(query key).getD d`; `dbFind` is the result of the database query. -/
def Read (query : String → Option String)
    (dbFind : DbQuery → Except String (List Entry)) : ReadOutcome :=
  let pageSize := (query "size").getD "10"
  let pageNum := (query "page").getD "1"
  let filterCol := (query "col").getD ""
  let filterData := (query "data").getD ""
  let fillBoth : ReadOutcome :=
    ⟨400, .error "Fill in both \"col\" and \"data\"", []⟩
  if filterCol ≠ "" ∧ filterData = "" then fillBoth -- fallthrough
  else if filterCol = "" ∧ filterData ≠ "" then fillBoth
  else
    match Atoi pageSize with
    | none => ⟨400, .error "Invalid size parameter", []⟩
    | some intSize =>
      match Atoi pageNum with
      | none => ⟨400, .error "Invalid page parameter", []⟩
      | some intPage =>
        let offset := wrapInt (wrapInt (intPage - 1) * intSize)
        let q : DbQuery :=
          if filterCol ≠ "" ∧ filterData ≠ "" then
            ⟨intSize, offset, some (filterCol ++ " LIKE ?", "%" ++ filterData ++ "%")⟩
          else ⟨intSize, offset, none⟩
        match dbFind q with
        | .error _ => ⟨500, .error "Request failed", [q]⟩
        | .ok entries => ⟨200, .entries entries, [q]⟩

/-! ## Provider behaviours used in the evaluations -/

/-- A network in which the three providers answer for the name "Ivan" as
the live services do for a known name. -/
def netAllAnswer : String → Reply := fun url =>
  if url = "https://api.agify.io/?name=Ivan" then
    .decoded [("count", .num 1428), ("name", .str "Ivan"), ("age", .num 42)]
  else if url = "https://api.genderize.io/?name=Ivan" then
    .decoded [("count", .num 1428), ("name", .str "Ivan"), ("gender", .str "male")]
  else
    .decoded [("count", .num 1428), ("name", .str "Ivan"),
      ("country", .arr [.obj [("country_id", .str "RU"), ("probability", .num 0)],
        .obj [("country_id", .str "BG"), ("probability", .num 0)]])]

/-- A network in which the age and gender providers answer and the
nationality provider knows no country for the name: `"country": []`. -/
def netNoCountry : String → Reply := fun url =>
  if url = "https://api.agify.io/?name=Ivan" then
    .decoded [("count", .num 1428), ("name", .str "Ivan"), ("age", .num 42)]
  else if url = "https://api.genderize.io/?name=Ivan" then
    .decoded [("count", .num 1428), ("name", .str "Ivan"), ("gender", .str "male")]
  else
    .decoded [("count", .num 0), ("name", .str "Ivan"), ("country", .arr [])]

/-- A network in which the age provider knows no age for the name:
`"age": null`. -/
def netNoAge : String → Reply := fun url =>
  if url = "https://api.agify.io/?name=Ivan" then
    .decoded [("count", .num 0), ("name", .str "Ivan"), ("age", .null)]
  else if url = "https://api.genderize.io/?name=Ivan" then
    .decoded [("count", .num 1428), ("name", .str "Ivan"), ("gender", .str "male")]
  else
    .decoded [("count", .num 1428), ("name", .str "Ivan"),
      ("country", .arr [.obj [("country_id", .str "RU"), ("probability", .num 0)]])]

/-- A network in which the age and gender providers cannot be reached and
the nationality provider answers with a country that carries no
"country_id". -/
def netTwoDown : String → Reply := fun url =>
  if url = "https://api.agify.io/?name=Ivan" then
    .transportError "dial tcp: i/o timeout"
  else if url = "https://api.genderize.io/?name=Ivan" then
    .transportError "dial tcp: i/o timeout"
  else
    .decoded [("count", .num 1), ("name", .str "Ivan"),
      ("country", .arr [.obj [("probability", .num 0)]])]

/-- The errors a task sends, in order. -/
def sends : List Act → List String
  | [] => []
  | .send err :: rest => err :: sends rest
  | _ :: rest => sends rest

/-- A schedule for `netTwoDown`: the age task runs to its end, the gender
task sends its first error and finds the channel full, the caller receives,
the gender task runs to its end, and the nationality task reaches its
send. -/
def schedTwoDown : List Tid :=
  [.age, .age, .age, .age, .age, .gender, .gender, .gender, .caller,
   .gender, .gender, .gender, .nationality, .nationality]

/-- The invariant of every `Enrich` call: the counter of the `WaitGroup`
counts the tasks that have not finished, the channel is closed only at
counter zero, and nil is returned only on the closed channel. -/
structure EnrichInv (s : Sys) : Prop where
  count : s.tasks = pending s.ageTask + pending s.genderTask + pending s.nationalityTask
  closed_imp : s.closed = true → s.tasks = 0
  ret_imp : s.ret = some none → s.closed = true

/-! ## Lemmas on the primitives -/

theorem stringsJoin_cons_data (a : String) (l : List String) (sep : String) :
    ∃ r : String, stringsJoin (a :: l) sep = a ++ r := by
  cases l with
  | nil => exact ⟨"", by simp [stringsJoin]⟩
  | cons b rest =>
    exact ⟨sep ++ stringsJoin (b :: rest) sep, by
      simp [stringsJoin, String.append_assoc]⟩

theorem stringsJoin_ne_empty (a : String) (l : List String) (sep : String)
    (ha : a ≠ "") : stringsJoin (a :: l) sep ≠ "" := by
  obtain ⟨r, hr⟩ := stringsJoin_cons_data a l sep
  intro h
  rw [hr] at h
  apply ha
  have h2 := congrArg String.data h
  simp at h2
  exact String.ext (by simpa using h2.1)

theorem firstFiring_mem {α : Type} (checks : List ((α → Bool) × String)) (v : α)
    (m : String) (h : firstFiring checks v = some m) :
    m ∈ checks.map Prod.snd := by
  unfold firstFiring at h
  rw [Option.map_eq_some'] at h
  obtain ⟨c, hc, rfl⟩ := h
  exact List.mem_map_of_mem _ (List.mem_of_find?_eq_some hc)

theorem name_step (X : List String) (s : String) :
    (if s = "" then X ++ ["name cannot be empty"]
     else if len s < 2 then X ++ ["name is too short"]
     else if len s > 50 then X ++ ["name is too long"]
     else if !matchNamePattern s then X ++ ["name contains invalid characters"]
     else X) = X ++ (firstFiring nameChecks s).toList := by
  by_cases h1 : s = "" <;> by_cases h2 : len s < 2 <;> by_cases h3 : len s > 50 <;>
    by_cases h4 : matchNamePattern s <;>
    simp [firstFiring, nameChecks, List.find?, h1, h2, h3, h4]

theorem surname_step (X : List String) (s : String) :
    (if s = "" then X ++ ["surname cannot be empty"]
     else if len s < 2 then X ++ ["surname is too short"]
     else if len s > 50 then X ++ ["surname is too long"]
     else if !matchNamePattern s then X ++ ["surname contains invalid characters"]
     else X) = X ++ (firstFiring surnameChecks s).toList := by
  by_cases h1 : s = "" <;> by_cases h2 : len s < 2 <;> by_cases h3 : len s > 50 <;>
    by_cases h4 : matchNamePattern s <;>
    simp [firstFiring, surnameChecks, List.find?, h1, h2, h3, h4]

theorem age_step (X : List String) (a : Nat) :
    (if a < 1 ∨ a > 120 then X ++ ["age contains invalid data"] else X)
      = X ++ (firstFiring ageChecks a).toList := by
  by_cases h1 : a < 1 <;> by_cases h2 : a > 120 <;>
    simp [firstFiring, ageChecks, List.find?, h1, h2]

theorem gender_step (X : List String) (s : String) :
    (if s = "" then X ++ ["gender cannot be empty"]
     else if s ≠ "male" ∧ s ≠ "female" then
       X ++ ["only “male” or “female” gender is available"]
     else X) = X ++ (firstFiring genderChecks s).toList := by
  by_cases h1 : s = "" <;> by_cases h2 : s = "male" <;> by_cases h3 : s = "female" <;>
    simp [firstFiring, genderChecks, List.find?, h1, h2, h3]

theorem nationality_step (X : List String) (s : String) :
    (if s = "" then X ++ ["nationality cannot be empty"]
     else if !matchCountryPattern s then
       X ++ ["nationality contains invalid data (example: RU, US)"]
     else X) = X ++ (firstFiring nationalityChecks s).toList := by
  by_cases h1 : s = "" <;> by_cases h2 : matchCountryPattern s <;>
    simp [firstFiring, nationalityChecks, List.find?, h1, h2]

theorem fullName_errContent_eq_violations (e : FullName) :
    FullName.errContent e = FullName.violations e := by
  simp only [FullName.errContent, FullName.violations]
  rw [name_step, surname_step, List.nil_append]

theorem entry_errContent_eq_violations (e : Entry) :
    Entry.errContent e = Entry.violations e := by
  simp only [Entry.errContent, Entry.violations]
  rw [name_step, surname_step, age_step, gender_step, nationality_step,
    List.nil_append]

theorem upperClass_iff (c : Char) : upperClass c = true ↔ 'A' ≤ c ∧ c ≤ 'Z' := by
  simp [upperClass, Char.le_def, Char.toNat, UInt32.le_def, BitVec.le_def, UInt32.toNat]

theorem len_data_nil : len "" = 0 := by decide

theorem len_eq_zero_iff (s : String) : len s = 0 ↔ s = "" := by
  constructor
  · intro h
    cases s with
    | mk d =>
      cases d with
      | nil => rfl
      | cons c cs =>
        exfalso
        simp only [len, List.map_cons, List.sum_cons] at h
        have : 1 ≤ runeLen c := by unfold runeLen; split_ifs <;> omega
        omega
  · rintro rfl; decide

theorem firstFiring_name_none (s : String) :
    firstFiring nameChecks s = none ↔
      2 ≤ len s ∧ len s ≤ 50 ∧ matchNamePattern s = true := by
  by_cases h1 : s = ""
  · subst h1
    simp [firstFiring, nameChecks, List.find?, len_data_nil]
  · by_cases h2 : len s < 2 <;> by_cases h3 : len s > 50 <;>
      by_cases h4 : matchNamePattern s <;>
      simp [firstFiring, nameChecks, List.find?, h1, h2, h3, h4]
    all_goals omega

theorem firstFiring_surname_none (s : String) :
    firstFiring surnameChecks s = none ↔
      2 ≤ len s ∧ len s ≤ 50 ∧ matchNamePattern s = true := by
  by_cases h1 : s = ""
  · subst h1
    simp [firstFiring, surnameChecks, List.find?, len_data_nil]
  · by_cases h2 : len s < 2 <;> by_cases h3 : len s > 50 <;>
      by_cases h4 : matchNamePattern s <;>
      simp [firstFiring, surnameChecks, List.find?, h1, h2, h3, h4]
    all_goals omega

theorem firstFiring_age_none (a : Nat) :
    firstFiring ageChecks a = none ↔ 1 ≤ a ∧ a ≤ 120 := by
  by_cases h1 : a < 1 <;> by_cases h2 : a > 120 <;>
    simp [firstFiring, ageChecks, List.find?, h1, h2]
  all_goals omega

theorem firstFiring_gender_none (s : String) :
    firstFiring genderChecks s = none ↔ s = "male" ∨ s = "female" := by
  by_cases h1 : s = "" <;> by_cases h2 : s = "male" <;> by_cases h3 : s = "female" <;>
    simp [firstFiring, genderChecks, List.find?, h1, h2, h3]

theorem matchCountryPattern_iff (s : String) :
    matchCountryPattern s = true ↔ TwoUpper s := by
  unfold matchCountryPattern TwoUpper
  constructor
  · intro h
    split at h
    · next a b hd =>
      simp only [Bool.and_eq_true, upperClass_iff] at h
      exact ⟨a, b, String.ext hd, h.1.1, h.1.2, h.2.1, h.2.2⟩
    · exact absurd h (by simp)
  · rintro ⟨a, b, rfl, h1, h2, h3, h4⟩
    simp [upperClass_iff, h1, h2, h3, h4]

theorem firstFiring_nationality_none (s : String) :
    firstFiring nationalityChecks s = none ↔ TwoUpper s := by
  rw [← matchCountryPattern_iff]
  by_cases h1 : s = "" <;> by_cases h2 : matchCountryPattern s <;>
    simp [firstFiring, nationalityChecks, List.find?, h1, h2]
  all_goals decide

theorem mem_toList_iff (o : Option String) (m : String) :
    m ∈ o.toList ↔ o = some m := by
  cases o <;> simp [Option.toList, eq_comm]

theorem fullName_violations_ne_empty (f : FullName) :
    ∀ m ∈ FullName.violations f, m ≠ "" := by
  intro m hm
  simp only [FullName.violations, List.mem_append, mem_toList_iff] at hm
  rcases hm with h | h <;> have h2 := firstFiring_mem _ _ _ h <;>
    simp [nameChecks, surnameChecks] at h2 <;>
    rcases h2 with rfl | rfl | rfl | rfl <;> decide

theorem entry_violations_ne_empty (e : Entry) :
    ∀ m ∈ Entry.violations e, m ≠ "" := by
  intro m hm
  simp only [Entry.violations, List.mem_append, mem_toList_iff] at hm
  rcases hm with (((h | h) | h) | h) | h <;> have h2 := firstFiring_mem _ _ _ h <;>
    simp [nameChecks, surnameChecks, ageChecks, genderChecks, nationalityChecks] at h2
  · rcases h2 with rfl | rfl | rfl | rfl <;> decide
  · rcases h2 with rfl | rfl | rfl | rfl <;> decide
  · subst h2; decide
  · rcases h2 with rfl | rfl <;> decide
  · rcases h2 with rfl | rfl <;> decide

theorem stringsJoin_eq_empty_iff (l : List String) (sep : String)
    (h : ∀ m ∈ l, m ≠ "") : stringsJoin l sep = "" ↔ l = [] := by
  cases l with
  | nil => simp [stringsJoin]
  | cons a rest =>
    simp only [reduceCtorEq, iff_false]
    exact stringsJoin_ne_empty a rest sep (h a (List.mem_cons_self _ _))

theorem fullName_verdict_eq_join (f : FullName) :
    FullName.IsValid f = stringsJoin (FullName.violations f) ", " := by
  unfold FullName.IsValid
  rw [fullName_errContent_eq_violations]
  split_ifs with h
  · rw [List.length_eq_zero] at h
    rw [h]; rfl
  · rfl

theorem FullName.IsValid_eq_empty_iff (f : FullName) :
    FullName.IsValid f = "" ↔
      firstFiring nameChecks f.Name = none ∧
      firstFiring surnameChecks f.Surname = none := by
  rw [fullName_verdict_eq_join,
    stringsJoin_eq_empty_iff _ _ (fullName_violations_ne_empty f)]
  simp only [FullName.violations, List.append_eq_nil]
  constructor
  · rintro ⟨h1, h2⟩
    constructor
    · cases h : firstFiring nameChecks f.Name <;> simp_all [Option.toList]
    · cases h : firstFiring surnameChecks f.Surname <;> simp_all [Option.toList]
  · rintro ⟨h1, h2⟩
    simp [h1, h2, Option.toList]

theorem entry_verdict_eq_join (e : Entry) :
    Entry.IsValid e =
      if Entry.violations e = [] then none
      else some (stringsJoin (Entry.violations e) ", ") := by
  unfold Entry.IsValid
  rw [entry_errContent_eq_violations]
  by_cases h : Entry.violations e = []
  · simp [h]
  · have h2 : (Entry.violations e).length ≠ 0 := fun hl => h (List.length_eq_zero.mp hl)
    simp [h, h2]

theorem toList_eq_nil_iff (o : Option String) : o.toList = [] ↔ o = none := by
  cases o <;> simp [Option.toList]

theorem Entry.IsValid_eq_none_iff (e : Entry) :
    Entry.IsValid e = none ↔
      firstFiring nameChecks e.Name = none ∧
      firstFiring surnameChecks e.Surname = none ∧
      firstFiring ageChecks e.Age = none ∧
      firstFiring genderChecks e.Gender = none ∧
      firstFiring nationalityChecks e.Nationality = none := by
  rw [entry_verdict_eq_join]
  simp only [Entry.violations, List.append_eq_nil, toList_eq_nil_iff]
  split_ifs with h
  · simp only [true_iff]; tauto
  · simp only [reduceCtorEq, false_iff]; tauto

/-- C1 (evaluation of the code at the failing input): a name of 26 Cyrillic
letters `а` (U+0430) with the surname "Ivanov" has 26 characters, all of the
class of letters the validator accepts, yet `FullName.IsValid` answers
"name is too long", because `len` counts the 52 bytes of its encoding. -/
theorem C1_name_of_26_cyrillic_letters_is_rejected :
    (String.mk (List.replicate 26 'а')).length = 26 ∧
    (String.mk (List.replicate 26 'а')).data.all nameClass = true ∧
    len (String.mk (List.replicate 26 'а')) = 52 ∧
    FullName.IsValid ⟨String.mk (List.replicate 26 'а'), "Ivanov", "Ivanovich", ""⟩
      = "name is too long" := by
  decide

/-- C2 (evaluation of the code at the failing input): the name "Я" has one
letter, fewer than 2, yet `FullName.IsValid` returns the empty verdict for
it, because `len` counts the 2 bytes of its encoding. -/
theorem C2_name_of_one_cyrillic_letter_is_accepted :
    ("Я" : String).length = 1 ∧ len "Я" = 2 ∧
    FullName.IsValid ⟨"Я", "Ivanov", "Ivanovich", ""⟩ = "" := by
  decide

/-- C3: for a record whose name and surname pass `FullName.IsValid`,
`Entry.IsValid` returns nil exactly when the age is in [1,120], the gender is
"male" or "female", and the nationality is exactly two letters `A`..`Z`. -/
theorem C3_entry_valid_iff_enriched_fields_valid (e : Entry) (p er : String)
    (h : FullName.IsValid ⟨e.Name, e.Surname, p, er⟩ = "") :
    Entry.IsValid e = none ↔
      (1 ≤ e.Age ∧ e.Age ≤ 120) ∧
      (e.Gender = "male" ∨ e.Gender = "female") ∧
      TwoUpper e.Nationality := by
  rw [FullName.IsValid_eq_empty_iff] at h
  rw [Entry.IsValid_eq_none_iff, firstFiring_age_none, firstFiring_gender_none,
    firstFiring_nationality_none]
  simp only [h.1, h.2, true_and]

/-- C3, at the record of the tests: "Ivan", "Ivanov", 42, "male", "RU". -/
theorem C3_witness :
    FullName.IsValid ⟨"Ivan", "Ivanov", "Ivanovich", ""⟩ = "" ∧
    (Entry.IsValid ⟨1, "Ivan", "Ivanov", "Ivanovich", 42, "male", "RU"⟩ = none ↔
      (1 ≤ 42 ∧ 42 ≤ 120) ∧ (("male" : String) = "male" ∨ ("male" : String) = "female") ∧
      TwoUpper "RU") :=
  ⟨by decide,
   C3_entry_valid_iff_enriched_fields_valid
    ⟨1, "Ivan", "Ivanov", "Ivanovich", 42, "male", "RU"⟩ "Ivanovich" "" (by decide)⟩

theorem stringsJoin_pair (m n : String) (l : List String) :
    ∃ rest, stringsJoin (m :: n :: l) ", " = m ++ ", " ++ n ++ rest := by
  obtain ⟨r, hr⟩ := stringsJoin_cons_data n l ", "
  exact ⟨r, by rw [stringsJoin, hr, String.append_assoc, String.append_assoc,
    String.append_assoc]⟩

/-- C5: the verdict of each validator is the messages of the violated fields,
one per field (that of the first check of the field that fires), joined with
", " in the order name, surname (then age, gender, nationality); it is the
valid verdict exactly when no field is violated; a record invalid in both
name and surname yields the name message, ", ", then the surname message. -/
theorem C5_verdict_joins_field_messages (f : FullName) (e : Entry) :
    FullName.IsValid f =
      stringsJoin ((firstFiring nameChecks f.Name).toList ++
        (firstFiring surnameChecks f.Surname).toList) ", " ∧
    (FullName.IsValid f = "" ↔
      firstFiring nameChecks f.Name = none ∧
      firstFiring surnameChecks f.Surname = none) ∧
    Entry.IsValid e =
      (if Entry.violations e = [] then none
       else some (stringsJoin ((firstFiring nameChecks e.Name).toList ++
        (firstFiring surnameChecks e.Surname).toList ++
        (firstFiring ageChecks e.Age).toList ++
        (firstFiring genderChecks e.Gender).toList ++
        (firstFiring nationalityChecks e.Nationality).toList) ", ")) ∧
    (Entry.IsValid e = none ↔
      firstFiring nameChecks e.Name = none ∧
      firstFiring surnameChecks e.Surname = none ∧
      firstFiring ageChecks e.Age = none ∧
      firstFiring genderChecks e.Gender = none ∧
      firstFiring nationalityChecks e.Nationality = none) ∧
    (∀ m n, firstFiring nameChecks f.Name = some m →
      firstFiring surnameChecks f.Surname = some n →
      FullName.IsValid f = m ++ ", " ++ n) ∧
    (∀ m n, firstFiring nameChecks e.Name = some m →
      firstFiring surnameChecks e.Surname = some n →
      ∃ rest, Entry.IsValid e = some (m ++ ", " ++ n ++ rest)) := by
  refine ⟨fullName_verdict_eq_join f, FullName.IsValid_eq_empty_iff f,
    entry_verdict_eq_join e, Entry.IsValid_eq_none_iff e, ?_, ?_⟩
  · intro m n hm hn
    rw [fullName_verdict_eq_join]
    simp [FullName.violations, hm, hn, Option.toList, stringsJoin]
  · intro m n hm hn
    rw [entry_verdict_eq_join]
    simp only [Entry.violations, hm, hn, Option.toList, List.singleton_append,
      List.cons_append, List.nil_append, reduceCtorEq, if_false, Option.some.injEq]
    exact stringsJoin_pair m n _

/-- C5, at the name "N" and the surname "1Ivanov", both invalid. -/
theorem C5_witness :
    FullName.IsValid ⟨"N", "1Ivanov", "", ""⟩
      = "name is too short" ++ ", " ++ "surname contains invalid characters" :=
  (C5_verdict_joins_field_messages ⟨"N", "1Ivanov", "", ""⟩
    ⟨1, "Ivan", "Ivanov", "", 42, "male", "RU"⟩).2.2.2.2.1
    "name is too short" "surname contains invalid characters" (by decide) (by decide)

/-! ## Lemmas on the goroutines of Enrich -/

theorem EnrichOK.preserved {u1 u2 u3 : String} {a : Nat} {g c : String} {s : Sys}
    (h : EnrichOK u1 u2 u3 a g c s) (t : Tid) : EnrichOK u1 u2 u3 a g c (step s t) := by
  obtain ⟨h1, h2, h3, h4, h5, h6, h7, h8⟩ := h
  cases t with
  | age =>
    rcases h3 with h3 | h3 | ⟨h3 | h3, h3a⟩
    all_goals
      rw [h3] at h6
      simp only [pending] at h6
      constructor <;> simp only [People2.step, stepTask, perform, h1, h3, if_false,
        Bool.false_eq_true, pending] <;>
        first | assumption | (simp [*]; done) | omega | (intro hc; have := h7 hc; omega)
  | gender =>
    rcases h4 with h4 | h4 | ⟨h4 | h4, h4a⟩
    all_goals
      rw [h4] at h6
      simp only [pending] at h6
      constructor <;> simp only [People2.step, stepTask, perform, h1, h4, if_false,
        Bool.false_eq_true, pending] <;>
        first | assumption | (simp [*]; done) | omega | (intro hc; have := h7 hc; omega)
  | nationality =>
    rcases h5 with h5 | h5 | ⟨h5 | h5, h5a⟩
    all_goals
      rw [h5] at h6
      simp only [pending] at h6
      constructor <;> simp only [People2.step, stepTask, perform, h1, h5, if_false,
        Bool.false_eq_true, pending] <;>
        first | assumption | (simp [*]; done) | omega | (intro hc; have := h7 hc; omega)
  | closer =>
    by_cases hc : s.tasks = 0 ∧ s.closed = false
    · obtain ⟨hc1, hc2⟩ := hc
      constructor <;> simp only [People2.step, h1, hc1, hc2, if_false, Bool.false_eq_true,
        and_self, if_true] <;>
        first | assumption | (simp [*]; done) | omega |
          (intro r hr; exact absurd (h8 r hr).2 (by simp [hc2]))
    · have : People2.step s .closer = s := by simp [People2.step, h1, hc]
      rw [this]; exact ⟨h1, h2, h3, h4, h5, h6, h7, h8⟩
  | caller =>
    cases hr : s.ret with
    | some r =>
      have : People2.step s .caller = s := by simp [People2.step, h1, hr]
      rw [this]; exact ⟨h1, h2, h3, h4, h5, h6, h7, h8⟩
    | none =>
      by_cases hc : s.closed = true
      · constructor <;> simp only [People2.step, h1, hr, h2, hc, if_false,
          Bool.false_eq_true, if_true] <;>
          first | assumption | (simp [*]; done) | exact fun _ => h7 hc
      · have : People2.step s .caller = s := by simp [People2.step, h1, hr, h2, hc]
        rw [this]; exact ⟨h1, h2, h3, h4, h5, h6, h7, h8⟩

theorem EnrichOK.foldl {u1 u2 u3 : String} {a : Nat} {g c : String}
    (sched : List Tid) : ∀ {s : Sys}, EnrichOK u1 u2 u3 a g c s →
    EnrichOK u1 u2 u3 a g c (sched.foldl People2.step s) := by
  induction sched with
  | nil => intro s h; exact h
  | cons t rest ih => intro s h; exact ih (h.preserved t)

/-- When `Enrich` has returned in a state of `EnrichOK`, all three fields are set. -/
theorem EnrichOK.returned {u1 u2 u3 : String} {a : Nat} {g c : String} {s : Sys}
    (h : EnrichOK u1 u2 u3 a g c s) (r : Option String) (hr : s.ret = some r) :
    r = none ∧ s.entry.Age = a ∧ s.entry.Gender = g ∧ s.entry.Nationality = c := by
  obtain ⟨h1, h2, h3, h4, h5, h6, h7, h8⟩ := h
  obtain ⟨hr1, hc⟩ := h8 r hr
  have h0 := h7 hc
  rw [h0] at h6
  refine ⟨hr1, ?_, ?_, ?_⟩
  · rcases h3 with h3 | h3 | ⟨_, h3a⟩
    · rw [h3] at h6; simp only [pending] at h6; omega
    · rw [h3] at h6; simp only [pending] at h6; omega
    · exact h3a
  · rcases h4 with h4 | h4 | ⟨_, h4a⟩
    · rw [h4] at h6; simp only [pending] at h6; omega
    · rw [h4] at h6; simp only [pending] at h6; omega
    · exact h4a
  · rcases h5 with h5 | h5 | ⟨_, h5a⟩
    · rw [h5] at h6; simp only [pending] at h6; omega
    · rw [h5] at h6; simp only [pending] at h6; omega
    · exact h5a

theorem stepTask_frame (s : Sys) (task : Option (List Act))
    (put : Sys → Option (List Act) → Sys) (f : Sys → Option (List Act))
    (hput : ∀ x v, f (put x v) = f x)
    (htasks : ∀ (x : Sys) (n : Nat), f { x with tasks := n } = f x)
    (hperf : ∀ a s1, perform s a = some s1 → f s1 = f s) :
    f (stepTask s task put) = f s := by
  unfold stepTask
  split
  · rfl
  · rw [hput, htasks]
  · split
    · rfl
    · next s1 hs1 =>
      split
      · exact hperf _ _ hs1
      · rw [hput]; exact hperf _ _ hs1

theorem perform_tasks (s : Sys) (a : Act) (s1 : Sys) (h : perform s a = some s1) :
    s1.ageTask = s.ageTask ∧ s1.genderTask = s.genderTask ∧
    s1.nationalityTask = s.nationalityTask := by
  cases a <;> simp only [perform, Option.some.injEq] at h
  case send err =>
    split_ifs at h <;> simp at h <;> subst h <;> simp
  all_goals subst h; simp

theorem step_ageTask (s : Sys) (t : Tid) (ht : t ≠ .age) :
    (People2.step s t).ageTask = s.ageTask := by
  by_cases hcr : s.crashed = true
  · simp [People2.step, hcr]
  · cases t with
    | age => exact absurd rfl ht
    | gender =>
      simp only [People2.step, hcr, Bool.false_eq_true, ↓reduceIte]
      exact stepTask_frame s _ _ Sys.ageTask (fun _ _ => rfl) (fun _ _ => rfl)
        (fun a s1 h => (perform_tasks s a s1 h).1)
    | nationality =>
      simp only [People2.step, hcr, Bool.false_eq_true, ↓reduceIte]
      exact stepTask_frame s _ _ Sys.ageTask (fun _ _ => rfl) (fun _ _ => rfl)
        (fun a s1 h => (perform_tasks s a s1 h).1)
    | closer =>
      simp only [People2.step, hcr, Bool.false_eq_true, ↓reduceIte]
      split_ifs <;> rfl
    | caller =>
      simp only [People2.step, hcr, Bool.false_eq_true, ↓reduceIte]
      repeat' split
      all_goals rfl

theorem step_genderTask (s : Sys) (t : Tid) (ht : t ≠ .gender) :
    (People2.step s t).genderTask = s.genderTask := by
  by_cases hcr : s.crashed = true
  · simp [People2.step, hcr]
  · cases t with
    | gender => exact absurd rfl ht
    | age =>
      simp only [People2.step, hcr, Bool.false_eq_true, ↓reduceIte]
      exact stepTask_frame s _ _ Sys.genderTask (fun _ _ => rfl) (fun _ _ => rfl)
        (fun a s1 h => (perform_tasks s a s1 h).2.1)
    | nationality =>
      simp only [People2.step, hcr, Bool.false_eq_true, ↓reduceIte]
      exact stepTask_frame s _ _ Sys.genderTask (fun _ _ => rfl) (fun _ _ => rfl)
        (fun a s1 h => (perform_tasks s a s1 h).2.1)
    | closer =>
      simp only [People2.step, hcr, Bool.false_eq_true, ↓reduceIte]
      split_ifs <;> rfl
    | caller =>
      simp only [People2.step, hcr, Bool.false_eq_true, ↓reduceIte]
      repeat' split
      all_goals rfl

theorem step_nationalityTask (s : Sys) (t : Tid) (ht : t ≠ .nationality) :
    (People2.step s t).nationalityTask = s.nationalityTask := by
  by_cases hcr : s.crashed = true
  · simp [People2.step, hcr]
  · cases t with
    | nationality => exact absurd rfl ht
    | age =>
      simp only [People2.step, hcr, Bool.false_eq_true, ↓reduceIte]
      exact stepTask_frame s _ _ Sys.nationalityTask (fun _ _ => rfl) (fun _ _ => rfl)
        (fun a s1 h => (perform_tasks s a s1 h).2.2)
    | gender =>
      simp only [People2.step, hcr, Bool.false_eq_true, ↓reduceIte]
      exact stepTask_frame s _ _ Sys.nationalityTask (fun _ _ => rfl) (fun _ _ => rfl)
        (fun a s1 h => (perform_tasks s a s1 h).2.2)
    | closer =>
      simp only [People2.step, hcr, Bool.false_eq_true, ↓reduceIte]
      split_ifs <;> rfl
    | caller =>
      simp only [People2.step, hcr, Bool.false_eq_true, ↓reduceIte]
      repeat' split
      all_goals rfl

theorem EnrichOK.age_done {u1 u2 u3 : String} {a : Nat} {g c : String} {s : Sys}
    (h : EnrichOK u1 u2 u3 a g c s) :
    (People2.step (People2.step (People2.step s .age) .age) .age).ageTask = none := by
  obtain ⟨h1, h2, h3, h4, h5, h6, h7, h8⟩ := h
  rcases h3 with h3 | h3 | ⟨h3 | h3, _⟩ <;>
    simp [People2.step, stepTask, perform, h1, h3]

theorem EnrichOK.gender_done {u1 u2 u3 : String} {a : Nat} {g c : String} {s : Sys}
    (h : EnrichOK u1 u2 u3 a g c s) :
    (People2.step (People2.step (People2.step s .gender) .gender) .gender).genderTask
      = none := by
  obtain ⟨h1, h2, h3, h4, h5, h6, h7, h8⟩ := h
  rcases h4 with h4 | h4 | ⟨h4 | h4, _⟩ <;>
    simp [People2.step, stepTask, perform, h1, h4]

theorem EnrichOK.nationality_done {u1 u2 u3 : String} {a : Nat} {g c : String} {s : Sys}
    (h : EnrichOK u1 u2 u3 a g c s) :
    (People2.step (People2.step (People2.step s .nationality) .nationality)
      .nationality).nationalityTask = none := by
  obtain ⟨h1, h2, h3, h4, h5, h6, h7, h8⟩ := h
  rcases h5 with h5 | h5 | ⟨h5 | h5, _⟩ <;>
    simp [People2.step, stepTask, perform, h1, h5]

/-- From any state of `EnrichOK`, the schedule `runToEnd` makes `Enrich` return nil. -/
theorem EnrichOK.returns {u1 u2 u3 : String} {a : Nat} {g c : String} {s : Sys}
    (h : EnrichOK u1 u2 u3 a g c s) :
    (runToEnd.foldl People2.step s).ret = some none := by
  simp only [runToEnd, List.foldl_cons, List.foldl_nil]
  have hA := h.age_done
  have kA := ((h.preserved .age).preserved .age).preserved .age
  generalize People2.step (People2.step (People2.step s .age) .age) .age = sA at hA kA
  have hG := kA.gender_done
  have hAG : (People2.step (People2.step (People2.step sA .gender) .gender) .gender).ageTask
      = none := by
    rw [step_ageTask _ _ (by decide), step_ageTask _ _ (by decide),
      step_ageTask _ _ (by decide), hA]
  have kG := ((kA.preserved .gender).preserved .gender).preserved .gender
  generalize People2.step (People2.step (People2.step sA .gender) .gender) .gender = sG
    at hG hAG kG
  have hN := kG.nationality_done
  have hAN : (People2.step (People2.step (People2.step sG .nationality) .nationality)
      .nationality).ageTask = none := by
    rw [step_ageTask _ _ (by decide), step_ageTask _ _ (by decide),
      step_ageTask _ _ (by decide), hAG]
  have hGN : (People2.step (People2.step (People2.step sG .nationality) .nationality)
      .nationality).genderTask = none := by
    rw [step_genderTask _ _ (by decide), step_genderTask _ _ (by decide),
      step_genderTask _ _ (by decide), hG]
  have kN := ((kG.preserved .nationality).preserved .nationality).preserved .nationality
  generalize People2.step (People2.step (People2.step sG .nationality) .nationality)
    .nationality = sN at hN hAN hGN kN
  obtain ⟨h1, h2, h3, h4, h5, h6, h7, h8⟩ := kN
  rw [hAN, hGN, hN] at h6
  simp only [pending] at h6
  by_cases hc : sN.closed = true
  · have e1 : People2.step sN .closer = sN := by simp [People2.step, h1, hc]
    rw [e1]
    cases hr : sN.ret with
    | some r => simp [People2.step, h1, hr, (h8 r hr).1]
    | none => simp [People2.step, h1, hr, h2, hc]
  · have hc2 : sN.closed = false := by simpa using hc
    have hr : sN.ret = none := by
      cases hr : sN.ret with
      | none => rfl
      | some r => exact absurd (h8 r hr).2 hc
    simp [People2.step, h1, hr, h2, hc2, h6]

/-! ## The claims on the lookup tasks, Enrich and Create -/

theorem crashed_absorbs (sched : List Tid) :
    ∀ s : Sys, s.crashed = true → sched.foldl People2.step s = s := by
  induction sched with
  | nil => intro s _; rfl
  | cons t rest ih =>
    intro s h
    have : People2.step s t = s := by simp [People2.step, h]
    rw [List.foldl_cons, this]
    exact ih s h

theorem enrichStart_ok (e : Entry) (name : String) (net : String → Reply)
    (ma mg mn first : List (String × JSON)) (a : Int) (g c : String)
    (rest : List JSON)
    (ha : net ("https://api.agify.io/?name=" ++ name) = Reply.decoded ma)
    (ha2 : mapIndex ma "age" = JSON.num a)
    (hg : net ("https://api.genderize.io/?name=" ++ name) = Reply.decoded mg)
    (hg2 : mapIndex mg "gender" = JSON.str g)
    (hn : net ("https://api.nationalize.io/?name=" ++ name) = Reply.decoded mn)
    (hn2 : mapIndex mn "country" = JSON.arr (JSON.obj first :: rest))
    (hn3 : mapIndex first "country_id" = JSON.str c) :
    EnrichOK ("https://api.agify.io/?name=" ++ name)
      ("https://api.genderize.io/?name=" ++ name)
      ("https://api.nationalize.io/?name=" ++ name) (uint8 a) g c
      (Entry.enrichStart e name net) := by
  have h1 : requests.Age net name =
      [Act.get ("https://api.agify.io/?name=" ++ name), Act.setAge (uint8 a)] := by
    simp [requests.Age, requests.apiReq, ha, ha2, assertFloat64]
  have h2 : requests.Gender net name =
      [Act.get ("https://api.genderize.io/?name=" ++ name), Act.setGender g] := by
    simp [requests.Gender, requests.apiReq, hg, hg2, assertString]
  have h3 : requests.Nationality net name =
      [Act.get ("https://api.nationalize.io/?name=" ++ name), Act.setNationality c] := by
    simp [requests.Nationality, requests.apiReq, hn, hn2, hn3, assertSlice, assertMap,
      assertString]
  constructor <;> simp [Entry.enrichStart, h1, h2, h3, pending]

/-- C6: when the three providers answer with a numeric "age", a string
"gender" and a non-empty "country" list whose element 0 is an object with a
string "country_id", then under every schedule of the goroutines `Enrich`
does not crash, returns nothing but nil, holds the three extracted values in
the record whenever it has returned, and does return nil once every
goroutine has been run to its end. -/
theorem C6_enrich_succeeds_when_all_lookups_succeed (e : Entry) (name : String)
    (net : String → Reply) (ma mg mn first : List (String × JSON)) (a : Int)
    (g c : String) (rest : List JSON)
    (ha : net ("https://api.agify.io/?name=" ++ name) = Reply.decoded ma)
    (ha2 : mapIndex ma "age" = JSON.num a)
    (hg : net ("https://api.genderize.io/?name=" ++ name) = Reply.decoded mg)
    (hg2 : mapIndex mg "gender" = JSON.str g)
    (hn : net ("https://api.nationalize.io/?name=" ++ name) = Reply.decoded mn)
    (hn2 : mapIndex mn "country" = JSON.arr (JSON.obj first :: rest))
    (hn3 : mapIndex first "country_id" = JSON.str c) (sched : List Tid) :
    (e.Enrich name net sched).crashed = false ∧
    (∀ r, (e.Enrich name net sched).ret = some r →
      r = none ∧ (e.Enrich name net sched).entry.Age = uint8 a ∧
      (e.Enrich name net sched).entry.Gender = g ∧
      (e.Enrich name net sched).entry.Nationality = c) ∧
    (e.Enrich name net (sched ++ runToEnd)).ret = some none ∧
    (e.Enrich name net (sched ++ runToEnd)).entry.Age = uint8 a ∧
    (e.Enrich name net (sched ++ runToEnd)).entry.Gender = g ∧
    (e.Enrich name net (sched ++ runToEnd)).entry.Nationality = c := by
  have h0 := enrichStart_ok e name net ma mg mn first a g c rest ha ha2 hg hg2 hn hn2 hn3
  have hs := EnrichOK.foldl sched h0
  have hend : (e.Enrich name net (sched ++ runToEnd)).ret = some none := by
    unfold Entry.Enrich
    rw [List.foldl_append]
    exact hs.returns
  have hs2 : EnrichOK _ _ _ _ _ _ (e.Enrich name net (sched ++ runToEnd)) :=
    EnrichOK.foldl (sched ++ runToEnd) h0
  exact ⟨hs.not_crashed, fun r hr => hs.returned r hr, hend,
    (hs2.returned none hend).2⟩

/-- C6, at the name "Ivan" with three answering providers, under a schedule
that starts with the caller. -/
theorem C6_witness :
    (Entry.Enrich ⟨0, "Ivan", "Ivanov", "Ivanovich", 0, "", ""⟩ "Ivan" netAllAnswer
      ([Tid.caller, Tid.nationality, Tid.age] ++ runToEnd)).ret = some none ∧
    (Entry.Enrich ⟨0, "Ivan", "Ivanov", "Ivanovich", 0, "", ""⟩ "Ivan" netAllAnswer
      ([Tid.caller, Tid.nationality, Tid.age] ++ runToEnd)).entry
      = ⟨0, "Ivan", "Ivanov", "Ivanovich", 42, "male", "RU"⟩ := by
  have h := C6_enrich_succeeds_when_all_lookups_succeed
    ⟨0, "Ivan", "Ivanov", "Ivanovich", 0, "", ""⟩ "Ivan" netAllAnswer
    [("count", .num 1428), ("name", .str "Ivan"), ("age", .num 42)]
    [("count", .num 1428), ("name", .str "Ivan"), ("gender", .str "male")]
    [("count", .num 1428), ("name", .str "Ivan"),
      ("country", .arr [.obj [("country_id", .str "RU"), ("probability", .num 0)],
        .obj [("country_id", .str "BG"), ("probability", .num 0)]])]
    [("country_id", .str "RU"), ("probability", .num 0)] 42 "male" "RU"
    [.obj [("country_id", .str "BG"), ("probability", .num 0)]]
    rfl rfl rfl rfl rfl rfl rfl [Tid.caller, Tid.nationality, Tid.age]
  exact ⟨h.2.2.1, by decide⟩

/-- C7 (evaluation of the code at the failing input): the age and gender
providers answer and the nationality provider answers `"country": []`, so
the age and gender tasks send no error and exactly the nationality lookup
fails.  When the nationality task runs first, its third step panics: the
process has crashed, `Enrich` has not returned, and under no continuation of
the schedule does it return. -/
theorem C7_enrich_crashes_when_country_list_empty :
    requests.Age netNoCountry "Ivan" =
      [.get "https://api.agify.io/?name=Ivan", .setAge 42] ∧
    requests.Gender netNoCountry "Ivan" =
      [.get "https://api.genderize.io/?name=Ivan", .setGender "male"] ∧
    (Entry.Enrich ⟨0, "Ivan", "Ivanov", "Ivanovich", 0, "", ""⟩ "Ivan" netNoCountry
      [.nationality, .nationality, .nationality]).crashed = true ∧
    ∀ sched : List Tid,
      (Entry.Enrich ⟨0, "Ivan", "Ivanov", "Ivanovich", 0, "", ""⟩ "Ivan" netNoCountry
        ([.nationality, .nationality, .nationality] ++ sched)).ret = none := by
  refine ⟨by decide, by decide, by decide, fun sched => ?_⟩
  unfold Entry.Enrich
  rw [List.foldl_append, crashed_absorbs sched _ (by decide)]
  decide

/-- C8 (evaluation of the code at the failing inputs): on a reply with
`"country": []`, on a reply without "country", and on a transport failure,
the Nationality task sends its errors and then evaluates `countryList[0]` on
the empty slice, which panics. -/
theorem C8_nationality_panics_without_country :
    requests.Nationality netNoCountry "Ivan" =
      [.get "https://api.nationalize.io/?name=Ivan",
       .send "country data not found",
       .panic "index out of range [0] with length 0"] ∧
    requests.Nationality (fun _ => .decoded [("count", .num 0), ("name", .str "Ivan")])
      "Ivan" =
      [.get "https://api.nationalize.io/?name=Ivan",
       .send "country data not found",
       .panic "index out of range [0] with length 0"] ∧
    requests.Nationality (fun _ => .transportError "dial tcp: i/o timeout") "Ivan" =
      [.get "https://api.nationalize.io/?name=Ivan",
       .send "dial tcp: i/o timeout",
       .send "country data not found",
       .panic "index out of range [0] with length 0"] := by
  decide

/-- C9 (evaluation of the code at the failing input): on the reply
`"age": null` the Age task sends "age data not found" and then also writes
its field; run alone on a record whose age is 30, it leaves the error in the
channel and the age 0 in the record. -/
theorem C9_age_sends_error_and_writes_field :
    requests.Age netNoAge "Ivan" =
      [.get "https://api.agify.io/?name=Ivan", .send "age data not found",
       .setAge 0] ∧
    (Entry.Enrich ⟨7, "Ivan", "Ivanov", "Ivanovich", 30, "male", "RU"⟩ "Ivan" netNoAge
      [.age, .age, .age, .age]).errCh = ["age data not found"] ∧
    (Entry.Enrich ⟨7, "Ivan", "Ivanov", "Ivanovich", 30, "male", "RU"⟩ "Ivan" netNoAge
      [.age, .age, .age, .age]).entry.Age = 0 := by
  decide

/-- C10: when the input-name verdict is not empty, `Create` answers 422 with
that verdict as the error text, whatever the providers, the database and the
schedule would do; no provider URL is fetched and no record is passed to the
database. -/
theorem C10_create_rejects_invalid_name_before_enrichment (dataMsg : FullName)
    (net : String → Reply) (dbCreate : Entry → Option String) (sched : List Tid)
    (h : dataMsg.IsValid ≠ "") :
    Create (.ok dataMsg) net dbCreate sched =
      ⟨some ⟨422, "error", dataMsg.IsValid⟩, [], []⟩ := by
  simp [Create, h]

/-- C10, at the name "N" of the tests. -/
theorem C10_witness :
    FullName.IsValid ⟨"N", "Ivanov", "Ivanovich", ""⟩ ≠ "" ∧
    Create (.ok ⟨"N", "Ivanov", "Ivanovich", ""⟩) netAllAnswer (fun _ => none) runToEnd =
      ⟨some ⟨422, "error", "name is too short"⟩, [], []⟩ :=
  ⟨by decide,
   C10_create_rejects_invalid_name_before_enrichment ⟨"N", "Ivanov", "Ivanovich", ""⟩
    netAllAnswer (fun _ => none) runToEnd (by decide)⟩

/-! ## The claims on Read, the Age task and the agreement of the profiles -/

/-- C11: when exactly one of the query parameters "col" and "data" is
non-empty, `Read` answers 400 with the error `Fill in both "col" and "data"`
and sends no query to the database, whatever "size" and "page" hold and
whatever the database would answer. -/
theorem C11_read_rejects_half_filter (query : String → Option String)
    (dbFind : DbQuery → Except String (List Entry))
    (h : ((query "col").getD "" ≠ "" ∧ (query "data").getD "" = "") ∨
      ((query "col").getD "" = "" ∧ (query "data").getD "" ≠ "")) :
    Read query dbFind =
      ⟨400, .error "Fill in both \"col\" and \"data\"", []⟩ := by
  unfold Read
  rcases h with h | h
  · simp only [h, ne_eq, not_false_eq_true, and_self, if_true]
  · have h2 : ¬ ((query "col").getD "" ≠ "" ∧ (query "data").getD "" = "") :=
      fun hc => hc.1 h.1
    rw [if_neg h2, if_pos h]

/-- C11, at the request of the tests `?col=Name` with a size that is not a
number. -/
theorem C11_witness :
    Read (fun k => if k = "col" then some "Name" else if k = "size" then some "x" else none)
      (fun _ => .ok []) =
      ⟨400, .error "Fill in both \"col\" and \"data\"", []⟩ :=
  C11_read_rejects_half_filter _ _ (Or.inl ⟨by decide, by decide⟩)

theorem violations_agree (e : Entry) (p er : String)
    (ha : 1 ≤ e.Age ∧ e.Age ≤ 120) (hg : e.Gender = "male" ∨ e.Gender = "female")
    (hn : TwoUpper e.Nationality) :
    Entry.violations e = FullName.violations ⟨e.Name, e.Surname, p, er⟩ := by
  simp [Entry.violations, FullName.violations, (firstFiring_age_none e.Age).mpr ha,
    (firstFiring_gender_none e.Gender).mpr hg,
    (firstFiring_nationality_none e.Nationality).mpr hn, Option.toList]

/-- C15: for a record whose age, gender and nationality satisfy their rules,
`Entry.IsValid` returns nil exactly when `FullName.IsValid` returns "" for the
same name and surname, and otherwise its error text is the verdict string of
`FullName.IsValid`. -/
theorem C15_profiles_agree_on_names (e : Entry) (p er : String)
    (ha : 1 ≤ e.Age ∧ e.Age ≤ 120) (hg : e.Gender = "male" ∨ e.Gender = "female")
    (hn : TwoUpper e.Nationality) :
    (Entry.IsValid e = none ↔ FullName.IsValid ⟨e.Name, e.Surname, p, er⟩ = "") ∧
    (FullName.IsValid ⟨e.Name, e.Surname, p, er⟩ ≠ "" →
      Entry.IsValid e = some (FullName.IsValid ⟨e.Name, e.Surname, p, er⟩)) := by
  have hv := violations_agree e p er ha hg hn
  have hj := fullName_verdict_eq_join ⟨e.Name, e.Surname, p, er⟩
  have he := stringsJoin_eq_empty_iff _ ", "
    (fullName_violations_ne_empty ⟨e.Name, e.Surname, p, er⟩)
  rw [entry_verdict_eq_join, hv, hj, he]
  by_cases h0 : FullName.violations ⟨e.Name, e.Surname, p, er⟩ = []
  · simp [h0, stringsJoin]
  · simp [h0]

/-- C15, at the name "N" and the surname "1Ivanov" with valid other fields. -/
theorem C15_witness :
    Entry.IsValid ⟨1, "N", "1Ivanov", "", 42, "male", "RU"⟩ =
      some (FullName.IsValid ⟨"N", "1Ivanov", "", ""⟩) :=
  (C15_profiles_agree_on_names ⟨1, "N", "1Ivanov", "", 42, "male", "RU"⟩ "" ""
    (by decide) (by decide)
    ⟨'R', 'U', by decide, by decide, by decide, by decide, by decide⟩).2 (by decide)

/-! ## The claims on the error channel and the join -/

theorem stuck_forever (s : Sys) (h : ∀ t, People2.step s t = s) (sched : List Tid) :
    sched.foldl People2.step s = s := by
  induction sched with
  | nil => rfl
  | cons t rest ih => rw [List.foldl_cons, h t]; exact ih

theorem perform_frame (s : Sys) (a : Act) (s1 : Sys) (h : perform s a = some s1) :
    s1.tasks = s.tasks ∧ s1.closed = s.closed ∧ s1.ret = s.ret := by
  cases a <;> simp only [perform, Option.some.injEq] at h
  case send err =>
    split_ifs at h <;> simp at h <;> subst h <;> simp
  all_goals subst h; simp

theorem EnrichInv.stepTask_age {s : Sys} (h : EnrichInv s) :
    EnrichInv (stepTask s s.ageTask (fun s v => { s with ageTask := v })) := by
  obtain ⟨h1, h2, h3⟩ := h
  unfold stepTask
  split
  · exact ⟨h1, h2, h3⟩
  · next hA =>
    rw [hA] at h1; simp only [pending] at h1
    constructor
    · simp only [pending]; omega
    · intro hc; have := h2 hc; omega
    · exact h3
  · next a rest hA =>
    split
    · exact ⟨h1, h2, h3⟩
    · next s1 hp =>
      obtain ⟨f1, f2, f3⟩ := perform_frame s a s1 hp
      obtain ⟨g1, g2, g3⟩ := perform_tasks s a s1 hp
      rw [hA] at h1 g1
      split
      · constructor
        · rw [f1, g1, g2, g3]; exact h1
        · rw [f1, f2]; exact h2
        · rw [f2, f3]; exact h3
      · constructor
        · simp only [f1, g2, g3, pending] at h1 ⊢; exact h1
        · simp only [f1, f2]; exact h2
        · simp only [f2, f3]; exact h3

theorem EnrichInv.stepTask_gender {s : Sys} (h : EnrichInv s) :
    EnrichInv (stepTask s s.genderTask (fun s v => { s with genderTask := v })) := by
  obtain ⟨h1, h2, h3⟩ := h
  unfold stepTask
  split
  · exact ⟨h1, h2, h3⟩
  · next hA =>
    rw [hA] at h1; simp only [pending] at h1
    constructor
    · simp only [pending]; omega
    · intro hc; have := h2 hc; omega
    · exact h3
  · next a rest hA =>
    split
    · exact ⟨h1, h2, h3⟩
    · next s1 hp =>
      obtain ⟨f1, f2, f3⟩ := perform_frame s a s1 hp
      obtain ⟨g1, g2, g3⟩ := perform_tasks s a s1 hp
      rw [hA] at h1 g2
      split
      · constructor
        · rw [f1, g1, g2, g3]; exact h1
        · rw [f1, f2]; exact h2
        · rw [f2, f3]; exact h3
      · constructor
        · simp only [f1, g1, g3, pending] at h1 ⊢; exact h1
        · simp only [f1, f2]; exact h2
        · simp only [f2, f3]; exact h3

theorem EnrichInv.stepTask_nationality {s : Sys} (h : EnrichInv s) :
    EnrichInv (stepTask s s.nationalityTask (fun s v => { s with nationalityTask := v })) := by
  obtain ⟨h1, h2, h3⟩ := h
  unfold stepTask
  split
  · exact ⟨h1, h2, h3⟩
  · next hA =>
    rw [hA] at h1; simp only [pending] at h1
    constructor
    · simp only [pending]; omega
    · intro hc; have := h2 hc; omega
    · exact h3
  · next a rest hA =>
    split
    · exact ⟨h1, h2, h3⟩
    · next s1 hp =>
      obtain ⟨f1, f2, f3⟩ := perform_frame s a s1 hp
      obtain ⟨g1, g2, g3⟩ := perform_tasks s a s1 hp
      rw [hA] at h1 g3
      split
      · constructor
        · rw [f1, g1, g2, g3]; exact h1
        · rw [f1, f2]; exact h2
        · rw [f2, f3]; exact h3
      · constructor
        · simp only [f1, g1, g2, pending] at h1 ⊢; exact h1
        · simp only [f1, f2]; exact h2
        · simp only [f2, f3]; exact h3

theorem EnrichInv.step_keeps {s : Sys} (h : EnrichInv s) (t : Tid) :
    EnrichInv (People2.step s t) := by
  by_cases hcr : s.crashed = true
  · have : People2.step s t = s := by simp [People2.step, hcr]
    rw [this]; exact h
  · cases t with
    | age =>
      simp only [People2.step, hcr, Bool.false_eq_true, ↓reduceIte]
      exact h.stepTask_age
    | gender =>
      simp only [People2.step, hcr, Bool.false_eq_true, ↓reduceIte]
      exact h.stepTask_gender
    | nationality =>
      simp only [People2.step, hcr, Bool.false_eq_true, ↓reduceIte]
      exact h.stepTask_nationality
    | closer =>
      obtain ⟨h1, h2, h3⟩ := h
      simp only [People2.step, hcr, Bool.false_eq_true, ↓reduceIte]
      split_ifs with hc
      · exact ⟨h1, fun _ => hc.1, fun _ => rfl⟩
      · exact ⟨h1, h2, h3⟩
    | caller =>
      obtain ⟨h1, h2, h3⟩ := h
      simp only [People2.step, hcr, Bool.false_eq_true, ↓reduceIte]
      split
      · exact ⟨h1, h2, h3⟩
      · split
        · exact ⟨h1, h2, fun hr => by simp at hr⟩
        · split_ifs with hc
          · exact ⟨h1, h2, fun _ => hc⟩
          · exact ⟨h1, h2, h3⟩

theorem EnrichInv.start (e : Entry) (name : String) (net : String → Reply) :
    EnrichInv (Entry.enrichStart e name net) :=
  ⟨by simp [Entry.enrichStart, pending], by simp [Entry.enrichStart],
   by simp [Entry.enrichStart]⟩

theorem EnrichInv.run (sched : List Tid) :
    ∀ {s : Sys}, EnrichInv s → EnrichInv (sched.foldl People2.step s) := by
  induction sched with
  | nil => intro s h; exact h
  | cons t rest ih => intro s h; exact ih (h.step_keeps t)

theorem pending_eq_zero (t : Option (List Act)) (h : pending t = 0) : t = none := by
  cases t with
  | none => rfl
  | some l => simp [pending] at h

/-- Once the three tasks have finished, no step changes that or the record. -/
theorem finished_step (s : Sys) (t : Tid)
    (hf : s.ageTask = none ∧ s.genderTask = none ∧ s.nationalityTask = none) :
    ((People2.step s t).ageTask = none ∧ (People2.step s t).genderTask = none ∧
      (People2.step s t).nationalityTask = none) ∧
    (People2.step s t).entry = s.entry := by
  obtain ⟨h1, h2, h3⟩ := hf
  by_cases hcr : s.crashed = true
  · have : People2.step s t = s := by simp [People2.step, hcr]
    rw [this]; exact ⟨⟨h1, h2, h3⟩, rfl⟩
  · cases t with
    | age =>
      have : People2.step s .age = s := by simp [People2.step, hcr, stepTask, h1]
      rw [this]; exact ⟨⟨h1, h2, h3⟩, rfl⟩
    | gender =>
      have : People2.step s .gender = s := by simp [People2.step, hcr, stepTask, h2]
      rw [this]; exact ⟨⟨h1, h2, h3⟩, rfl⟩
    | nationality =>
      have : People2.step s .nationality = s := by
        simp [People2.step, hcr, stepTask, h3]
      rw [this]; exact ⟨⟨h1, h2, h3⟩, rfl⟩
    | closer =>
      simp only [People2.step, hcr, Bool.false_eq_true, ↓reduceIte]
      split_ifs <;> exact ⟨⟨h1, h2, h3⟩, rfl⟩
    | caller =>
      simp only [People2.step, hcr, Bool.false_eq_true, ↓reduceIte]
      repeat' split
      all_goals exact ⟨⟨h1, h2, h3⟩, rfl⟩

theorem finished_run (sched : List Tid) :
    ∀ s : Sys, (s.ageTask = none ∧ s.genderTask = none ∧ s.nationalityTask = none) →
      (sched.foldl People2.step s).entry = s.entry := by
  induction sched with
  | nil => intro s _; rfl
  | cons t rest ih =>
    intro s hf
    have h := finished_step s t hf
    rw [List.foldl_cons, ih _ h.1, h.2]

/-- C12 (evaluation of the code at the failing input): the age and gender
providers cannot be reached and the nationality provider answers with a
country without "country_id".  The Age task alone sends two errors and the
three tasks send five; under `schedTwoDown` the channel holds three errors
after the caller has returned, and the nationality task stays blocked on its
send under every continuation of the schedule. -/
theorem C12_tasks_send_five_errors_and_one_blocks :
    sends (requests.Age netTwoDown "Ivan") =
      ["dial tcp: i/o timeout", "age data not found"] ∧
    sends (requests.Age netTwoDown "Ivan") ++ sends (requests.Gender netTwoDown "Ivan") ++
      sends (requests.Nationality netTwoDown "Ivan") =
      ["dial tcp: i/o timeout", "age data not found", "dial tcp: i/o timeout",
       "gender data not found", "country ID not found"] ∧
    (Entry.Enrich ⟨0, "Ivan", "Ivanov", "Ivanovich", 0, "", ""⟩ "Ivan" netTwoDown
      schedTwoDown).errCh =
      ["age data not found", "dial tcp: i/o timeout", "gender data not found"] ∧
    (Entry.Enrich ⟨0, "Ivan", "Ivanov", "Ivanovich", 0, "", ""⟩ "Ivan" netTwoDown
      schedTwoDown).ret = some (some "dial tcp: i/o timeout") ∧
    ∀ sched : List Tid,
      (Entry.Enrich ⟨0, "Ivan", "Ivanov", "Ivanovich", 0, "", ""⟩ "Ivan" netTwoDown
        (schedTwoDown ++ sched)).nationalityTask =
        some [.send "country ID not found", .setNationality ""] := by
  refine ⟨by decide, by decide, by decide, by decide, fun sched => ?_⟩
  unfold Entry.Enrich
  rw [List.foldl_append, stuck_forever _ (fun t => by cases t <;> decide) sched]
  decide

/-- C14 (counterexample): the age provider answers `"age": null`.  After two
steps of the age task and one of the caller, `Enrich` has returned "age data
not found" while no task has finished: the age task has its assignment still
to do and the gender task has not started; two further steps of the gender
task then write "male" into the record the caller already holds. -/
theorem C14_enrich_returns_error_before_tasks_finish :
    (Entry.Enrich ⟨0, "Ivan", "Ivanov", "Ivanovich", 0, "", ""⟩ "Ivan" netNoAge
      [.age, .age, .caller]).ret = some (some "age data not found") ∧
    (Entry.Enrich ⟨0, "Ivan", "Ivanov", "Ivanovich", 0, "", ""⟩ "Ivan" netNoAge
      [.age, .age, .caller]).ageTask = some [.setAge 0] ∧
    (Entry.Enrich ⟨0, "Ivan", "Ivanov", "Ivanovich", 0, "", ""⟩ "Ivan" netNoAge
      [.age, .age, .caller]).genderTask =
      some [.get "https://api.genderize.io/?name=Ivan", .setGender "male"] ∧
    (Entry.Enrich ⟨0, "Ivan", "Ivanov", "Ivanovich", 0, "", ""⟩ "Ivan" netNoAge
      [.age, .age, .caller]).tasks = 3 ∧
    (Entry.Enrich ⟨0, "Ivan", "Ivanov", "Ivanovich", 0, "", ""⟩ "Ivan" netNoAge
      [.age, .age, .caller]).entry.Gender = "" ∧
    (Entry.Enrich ⟨0, "Ivan", "Ivanov", "Ivanovich", 0, "", ""⟩ "Ivan" netNoAge
      ([.age, .age, .caller] ++ [.gender, .gender])).entry.Gender = "male" := by
  decide

/-- C14 (amended): in every execution in which `Enrich` has returned nil, the
channel is closed, the counter of the `WaitGroup` is zero, all three lookup
tasks have finished, and no continuation of the schedule changes the
record. -/
theorem C14_enrich_returns_nil_only_after_join (e : Entry) (name : String)
    (net : String → Reply) (sched : List Tid)
    (h : (e.Enrich name net sched).ret = some none) :
    (e.Enrich name net sched).closed = true ∧
    (e.Enrich name net sched).tasks = 0 ∧
    (e.Enrich name net sched).ageTask = none ∧
    (e.Enrich name net sched).genderTask = none ∧
    (e.Enrich name net sched).nationalityTask = none ∧
    ∀ more : List Tid,
      (e.Enrich name net (sched ++ more)).entry = (e.Enrich name net sched).entry := by
  have hinv : EnrichInv (e.Enrich name net sched) :=
    EnrichInv.run sched (EnrichInv.start e name net)
  have hc := hinv.ret_imp h
  have h0 := hinv.closed_imp hc
  have hcount := hinv.count
  rw [h0] at hcount
  have hA := pending_eq_zero (e.Enrich name net sched).ageTask (by omega)
  have hG := pending_eq_zero (e.Enrich name net sched).genderTask (by omega)
  have hN := pending_eq_zero (e.Enrich name net sched).nationalityTask (by omega)
  refine ⟨hc, h0, hA, hG, hN, fun more => ?_⟩
  have : e.Enrich name net (sched ++ more) =
      more.foldl People2.step (e.Enrich name net sched) := by
    simp [Entry.Enrich, List.foldl_append]
  rw [this]
  exact finished_run more _ ⟨hA, hG, hN⟩

/-- C14 (amended), at the name "Ivan" with three answering providers. -/
theorem C14_witness :
    (Entry.Enrich ⟨0, "Ivan", "Ivanov", "Ivanovich", 0, "", ""⟩ "Ivan" netAllAnswer
      runToEnd).ret = some none ∧
    (Entry.Enrich ⟨0, "Ivan", "Ivanov", "Ivanovich", 0, "", ""⟩ "Ivan" netAllAnswer
      runToEnd).genderTask = none :=
  ⟨by decide,
   (C14_enrich_returns_nil_only_after_join ⟨0, "Ivan", "Ivanov", "Ivanovich", 0, "", ""⟩
    "Ivan" netAllAnswer runToEnd (by decide)).2.2.2.1⟩

end People2
